import Mathlib

/-!
Verification of the AI-calendar application logic (src/my-ai-calendar).

The development shallowly embeds the four behaviours with decision logic:
the event matcher (`matchingUpcomingEvents` effect in App.jsx), the day
filter (`filteredEvents` effect), the suggestion applier
(`handleAcceptSuggestion`), the LLM retry loops (`handleParseEvent` /
`handleOptimizeSchedule`), and the calendar grid construction
(`calendarDays` in CalendarGrid.jsx).

Events are stored with string fields `date` ("YYYY-MM-DD") and `time`
("HH:MM"), exactly as in Firestore documents.  The JavaScript code only
ever compares the `Date` objects built from those strings (equality after
midnight normalisation, and `<` / `>` on `getTime()`), so timestamps are
embedded by a strictly monotone numeric encoding of (year, month, day)
plus minutes-of-day; no timezone conversion is modelled, following the
specification's normalisation assumption that both sides of every
comparison denote the same local calendar date.
-/

namespace Cal

/-- One calendar event as stored in the per-user Firestore collection.
`description` and `locationType` are always present on stored documents
(they are defaulted to `""` at every write site). -/
structure Event where
  id : String
  title : String
  date : String
  time : String
  description : String
  locationType : String
deriving DecidableEq

/-- JavaScript `s.split(sep)` on the character list of a string: always
returns at least one (possibly empty) chunk, and an empty chunk around
each separator occurrence. -/
def splitOnChar (sep : Char) : List Char → List (List Char)
  | [] => [[]]
  | c :: rest =>
    match splitOnChar sep rest with
    | [] => [[c]]
    | t :: ts => if c == sep then [] :: t :: ts else (c :: t) :: ts

/-- JavaScript `Number(...)` on a string of decimal digits. -/
def digitsToNat (cs : List Char) : Nat :=
  cs.foldl (fun n c => n * 10 + (c.toNat - '0'.toNat)) 0

/-- The source's `event.time.split(':').map(Number)` turned into minutes since midnight;
non-`HH:MM` input degrades to `0` (the source never feeds it garbage). -/
def timeMinutes (s : String) : Nat :=
  match splitOnChar ':' s.data with
  | [h, m] => digitsToNat h * 60 + digitsToNat m
  | _ => 0

/-- Day ordinal of a "YYYY-MM-DD" string.  `y*372 + m*31 + d` is strictly
monotone with respect to the lexicographic order on valid (y, m, d)
triples (m ≤ 12, d ≤ 31, and 12*31+31 = 403 < 372 + 32), so it refines
every `Date` comparison the source performs on date-only values. -/
def dateOrd (s : String) : Nat :=
  match splitOnChar '-' s.data with
  | [y, m, d] => digitsToNat y * 372 + digitsToNat m * 31 + digitsToNat d
  | _ => 0

/-- JavaScript `toLowerCase()`. -/
def lowerStr (s : String) : String := String.mk (s.data.map Char.toLower)

/-- The current instant (`new Date()`): the local calendar day (as a day
ordinal) and the minutes elapsed since local midnight. -/
structure Clock where
  day : Nat
  minutes : Nat
deriving DecidableEq

/-- Full timestamp of an event, combining the calendar day with the
time of day: `new Date(date + 'T' + time).getTime()` up to the monotone
re-encoding (1440 minutes per day). -/
def eventTs (e : Event) : Nat := dateOrd e.date * 1440 + timeMinutes e.time

/-- Timestamp of the current instant in the same encoding. -/
def nowTs (c : Clock) : Nat := c.day * 1440 + c.minutes

/-- The test `event.locationType && event.locationType.toLowerCase() === mock.toLowerCase()`:
an empty tag is falsy, otherwise the tags are compared case-insensitively. -/
def locMatch (label : String) (e : Event) : Bool :=
  (e.locationType != "") && (lowerStr e.locationType == lowerStr label)

/-- The filter predicate of the proactive-suggestion effect in App.jsx:
events on a strictly later day always pass the date test, same-day events
compare their time of day against the current clock time, past days fail. -/
def matchesUpcoming (now : Clock) (label : String) (e : Event) : Bool :=
  let locationMatches := locMatch label e
  let eventDay := dateOrd e.date
  let isUpcoming := decide (now.day < eventDay)
  if eventDay == now.day then
    locationMatches && decide (now.minutes < timeMinutes e.time)
  else
    locationMatches && isUpcoming

/-- Ascending-timestamp order used by the sort comparators in App.jsx
(`new Date(a.date+'T'+a.time) - new Date(b.date+'T'+b.time)`). -/
def tsLE (a b : Event) : Prop := eventTs a ≤ eventTs b

instance : DecidableRel tsLE := fun a b => Nat.decLe (eventTs a) (eventTs b)

instance : IsTotal Event tsLE := ⟨fun a b => Nat.le_total (eventTs a) (eventTs b)⟩

instance : IsTrans Event tsLE := ⟨fun _ _ _ hab hbc => Nat.le_trans hab hbc⟩

/-- The chain `events.filter(...)` then `.sort(byTimestamp)` from the
proactive-suggestion effect. -/
def matchingUpcomingEvents (events : List Event) (label : String) (now : Clock) :
    List Event :=
  List.insertionSort tsLE (events.filter (matchesUpcoming now label))

/-- The event the proactive-suggestion effect settles on:
`null` when no location is set or there are no events, otherwise
`matchingUpcomingEvents[0]` when the filtered list is non-empty. -/
def proactiveEvent (events : List Event) (label : String) (now : Clock) :
    Option Event :=
  if label == "" || events.isEmpty then none
  else (matchingUpcomingEvents events label now).head?

/-- The day-filter predicate: both the event date and the selected date are
normalised to local midnight, so the comparison is day-ordinal equality. -/
def onSelectedDay (selected : Nat) (e : Event) : Bool :=
  dateOrd e.date == selected

/-- The `filteredEvents` effect in App.jsx: events of the selected day. -/
def filteredEvents (events : List Event) (selected : Nat) : List Event :=
  events.filter (onSelectedDay selected)

/-! ## Write paths: the five event fields written to Firestore -/

/-- The document body written by `setDoc` / `updateDoc` (every write site
writes exactly these five fields; the `id` is the document key). -/
structure EventDoc where
  title : String
  date : String
  time : String
  description : String
  locationType : String
deriving DecidableEq

/-- The `eventDetails` object attached to an `add` change operation, as
produced by the LLM: `description` and `locationType` may be absent. -/
structure Details where
  title : String
  date : String
  time : String
  description : Option String
  locationType : Option String
deriving DecidableEq

/-- JavaScript truthiness of an optional string field: `undefined` and
`""` are falsy. -/
def truthy (s : Option String) : Bool :=
  match s with
  | none => false
  | some v => v != ""

/-- The object the parse flow receives from `JSON.parse` of the LLM text:
every field may be absent. -/
structure ParsedLLM where
  title : Option String
  date : Option String
  time : Option String
  description : Option String
  locationType : Option String
deriving DecidableEq

/-- The regex test `finalDate.match(/^\d\x7b2\x7d-\d\x7b2\x7d$/)`: exactly "MM-DD". -/
def matchMMDD (s : String) : Bool :=
  match s.data with
  | [a, b, c, d, e] => a.isDigit && b.isDigit && (c == '-') && d.isDigit && e.isDigit
  | _ => false

/-- The regex test `finalDate.match(/^\d\x7b2\x7d-\d\x7b2\x7d-\d\x7b2\x7d$/)`: exactly "YY-MM-DD". -/
def matchYYMMDD (s : String) : Bool :=
  match s.data with
  | [a, b, c, d, e, f, g, h] =>
      a.isDigit && b.isDigit && (c == '-') && d.isDigit && e.isDigit &&
        (f == '-') && g.isDigit && h.isDigit
  | _ => false

/-- The year-inference step of `handleParseEvent`: an "MM-DD" date gets the
current year prepended, a "YY-MM-DD" date gets "20" prepended, anything
else is kept as is. -/
def finalizeDate (currentYear : Nat) (s : String) : String :=
  if matchMMDD s then toString currentYear ++ "-" ++ s
  else if matchYYMMDD s then "20" ++ s
  else s

/-- The validate-and-build step of `handleParseEvent`: the document saved by
`setDoc` when `parsed.title && parsed.date && parsed.time` holds, `none`
when the guard rejects the parsed object ("incomplete or invalid event
data"). -/
def finalParsedEvent (currentYear : Nat) (p : ParsedLLM) : Option EventDoc :=
  if truthy p.title && truthy p.date && truthy p.time then
    some { title := p.title.getD ""
           date := finalizeDate currentYear (p.date.getD "")
           time := p.time.getD ""
           description := p.description.getD ""
           locationType := p.locationType.getD "" }
  else none

/-- The edit-modal form data. -/
structure EditForm where
  title : String
  date : String
  time : String
  description : String
  locationType : String
deriving DecidableEq

/-- The update flow `handleUpdateEvent`: the five fields passed to `updateDoc`, or `none`
when the `!title || !date || !time` guard reports
"Title, Date, and Time are required for an event." -/
def handleUpdateEvent (f : EditForm) : Option EventDoc :=
  if f.title != "" && f.date != "" && f.time != "" then
    some { title := f.title, date := f.date, time := f.time
           description := f.description, locationType := f.locationType }
  else none

/-- The `newEventData` object built for an `add` change operation:
`description` and `locationType` are defaulted to `""`, the other three
fields are copied from the suggestion unchanged. -/
def addEventDoc (d : Details) : EventDoc :=
  { title := d.title, date := d.date, time := d.time
    description := d.description.getD ""
    locationType := d.locationType.getD "" }

/-! ## The suggestion applier (`handleAcceptSuggestion`) -/

/-- One change operation from an LLM suggestion.  Optional fields model
absent JSON properties; `unknown` covers any `type` outside
add/move/delete. -/
inductive ChangeOp where
  | add (eventDetails : Option Details)
  | move (eventId : Option String) (newTime : Option String)
  | delete (eventId : Option String)
  | unknown
deriving DecidableEq

/-- A persistence call issued against the per-user event collection. -/
inductive FsCall where
  | create (d : Details) (freshId : String)
  | update (eventId : String) (newTime : String)
  | deleteDoc (eventId : String)
deriving DecidableEq

/-- The auto-generated document id handed out by `doc(eventsCollectionRef)`
for the n-th create of a run (uninterpreted; only freshness matters). -/
def freshId (n : Nat) : String := "doc-" ++ toString n

/-- The call `updateDoc(eventDocRef, \x7b time: newTime \x7d)` on a single document:
only the `time` field of the event with the matching id changes. -/
def movePatch (eventId newTime : String) (e : Event) : Event :=
  if e.id == eventId then { e with time := newTime } else e

/-- Effect of one successful persistence call on the stored collection. -/
def execCall (st : List Event) : FsCall → List Event
  | .create d fid =>
      st ++ [{ id := fid, title := (addEventDoc d).title, date := (addEventDoc d).date
               time := (addEventDoc d).time, description := (addEventDoc d).description
               locationType := (addEventDoc d).locationType }]
  | .update eventId newTime => st.map (movePatch eventId newTime)
  | .deleteDoc eventId => st.filter (fun e => !(e.id == eventId))

/-- The guard chain of the applier's `for` body: which persistence call a
change operation triggers, or `none` when the operation falls through to
the "Unknown or incomplete change type" warning.  The truthiness tests
mirror `change.eventDetails`, `change.eventId && change.newTime` and
`change.eventId`. -/
def opCall (fresh : Nat) : ChangeOp → Option FsCall
  | .add (some d) => some (.create d (freshId fresh))
  | .move (some eventId) (some newTime) =>
      if eventId != "" && newTime != "" then some (.update eventId newTime) else none
  | .delete (some eventId) =>
      if eventId != "" then some (.deleteDoc eventId) else none
  | _ => none

/-- The id counter advances exactly on creates. -/
def nextFresh (fresh : Nat) : FsCall → Nat
  | .create _ _ => fresh + 1
  | _ => fresh

/-- Observable outcome of a `handleAcceptSuggestion` run: the final stored
collection, the persistence calls attempted in order, the number of
skipped (warned-about) operations, and whether the surrounding
`try/catch` caught a persistence failure.  `fails` says which persistence
calls reject; a rejection propagates out of the `for` loop to the single
`catch`, so the remaining operations are not attempted and the store is
left as it was at that point. -/
structure ApplyResult where
  store : List Event
  calls : List FsCall
  warnings : Nat
  failed : Bool
deriving DecidableEq

/-- The applier loop of `handleAcceptSuggestion`. -/
def handleAcceptSuggestion (fails : FsCall → Bool) (st : List Event) (fresh : Nat) :
    List ChangeOp → ApplyResult
  | [] => ⟨st, [], 0, false⟩
  | op :: rest =>
    match opCall fresh op with
    | none =>
        let r := handleAcceptSuggestion fails st fresh rest
        ⟨r.store, r.calls, r.warnings + 1, r.failed⟩
    | some call =>
        if fails call then ⟨st, [call], 0, true⟩
        else
          let r := handleAcceptSuggestion fails (execCall st call) (nextFresh fresh call) rest
          ⟨r.store, call :: r.calls, r.warnings, r.failed⟩

/-! ## The LLM retry loops (`handleParseEvent`, `handleOptimizeSchedule`)

Both handlers run the identical `while (retries < maxRetries)` loop:
a thrown fetch / non-ok status increments `retries` and waits
`baseDelay * 2^(retries-1)` before the next attempt (or reports the
terminal error when the bound is reached), a response-shape problem
reports an error without touching `retries`, and a valid payload breaks
out of the loop. -/

/-- What one scripted response to an outbound request looks like to the
loop body.  `fetchFailure` covers a rejected fetch and a non-ok HTTP
status (the `!response.ok` branch throws into the same catch);
the three shape errors are the `setError`-and-fall-through branches. -/
inductive LLMResponse where
  | fetchFailure
  | emptyCandidates
  | unparsableJson
  | missingFields
  | success
deriving DecidableEq

/-- How a finite script of responses leaves the loop. -/
inductive LoopOutcome where
  | completed
  | terminalError
  | stillRunning
deriving DecidableEq

/-- Trace of a retry-loop run: outbound requests made, waits inserted
between attempts, how the loop ended, and how many response-shape errors
were reported along the way. -/
structure LoopTrace where
  attempts : Nat
  delays : List Nat
  outcome : LoopOutcome
  shapeErrors : Nat
deriving DecidableEq

/-- The retry loop, driven by a finite script of responses (one response
per outbound request).  `stillRunning` means the script ran out while the
loop condition still held — the loop would issue yet another request. -/
def retryLoop (maxRetries baseDelay : Nat) (retries : Nat) :
    List LLMResponse → LoopTrace
  | [] => if retries < maxRetries then ⟨0, [], .stillRunning, 0⟩ else ⟨0, [], .completed, 0⟩
  | r :: rest =>
    if retries < maxRetries then
      match r with
      | .success => ⟨1, [], .completed, 0⟩
      | .emptyCandidates | .unparsableJson | .missingFields =>
          let t := retryLoop maxRetries baseDelay retries rest
          ⟨t.attempts + 1, t.delays, t.outcome, t.shapeErrors + 1⟩
      | .fetchFailure =>
          if retries + 1 < maxRetries then
            let t := retryLoop maxRetries baseDelay (retries + 1) rest
            ⟨t.attempts + 1, baseDelay * 2 ^ (retries + 1 - 1) :: t.delays,
              t.outcome, t.shapeErrors⟩
          else ⟨1, [], .terminalError, 0⟩
    else ⟨0, [], .completed, 0⟩

/-! ## The calendar grid (CalendarGrid.jsx) -/

/-- Whether `year` is a Gregorian leap year (JavaScript `Date` semantics). -/
def isLeap (year : Nat) : Bool :=
  (year % 4 == 0 && year % 100 != 0) || year % 400 == 0

/-- Length of the 0-indexed month `m` (0 ≤ m ≤ 11) of `year`. -/
def monthLength (year m : Nat) : Nat :=
  match m with
  | 0 => 31
  | 1 => if isLeap year then 29 else 28
  | 2 => 31
  | 3 => 30
  | 4 => 31
  | 5 => 30
  | 6 => 31
  | 7 => 31
  | 8 => 30
  | 9 => 31
  | 10 => 30
  | _ => 31

/-- JavaScript `new Date(year, month + 1, 0).getDate()`: the number of days of the
0-indexed `month`, after JavaScript's month-overflow normalisation. -/
def getDaysInMonth (year month : Nat) : Nat :=
  monthLength (year + month / 12) (month % 12)

/-- Sakamoto's day-of-week table for 1-indexed months. -/
def sakamotoOffset (m1 : Nat) : Nat :=
  match m1 with
  | 1 => 0
  | 2 => 3
  | 3 => 2
  | 4 => 5
  | 5 => 0
  | 6 => 3
  | 7 => 5
  | 8 => 1
  | 9 => 4
  | 10 => 6
  | 11 => 2
  | _ => 4

/-- Day of week (0 = Sunday) of day 1 of the 1-indexed month `m1` of
year `y`, by Sakamoto's congruence. -/
def dayOfWeekFirst (y m1 : Nat) : Nat :=
  let y1 := if m1 < 3 then y - 1 else y
  (y1 + y1 / 4 + y1 / 400 + sakamotoOffset m1 + 1 - y1 / 100) % 7

/-- JavaScript `new Date(year, month, 1).getDay()`: weekday of the first of the
0-indexed `month`, after month-overflow normalisation. -/
def getFirstDayOfMonth (year month : Nat) : Nat :=
  dayOfWeekFirst (year + month / 12) (month % 12 + 1)

/-- The `calendarDays` array of CalendarGrid.jsx: `firstDayOfMonth` null
placeholders pushed first, then the day numbers 1 .. `daysInMonth`. -/
def calendarDays (year month : Nat) : List (Option Nat) :=
  List.replicate (getFirstDayOfMonth year month) none
    ++ (List.range (getDaysInMonth year month)).map (fun i => some (i + 1))

/-! ## Concrete example values used by counterexamples and witnesses -/

/-- A stored event with id "a". -/
def evA : Event :=
  { id := "a", title := "Event A", date := "2025-08-04", time := "10:00"
    description := "", locationType := "" }

/-- A stored event with id "b". -/
def evB : Event :=
  { id := "b", title := "Event B", date := "2025-08-04", time := "12:00"
    description := "", locationType := "" }

/-- A persistence layer on which exactly the delete of document "a" rejects. -/
def failsDelA (c : FsCall) : Bool := c == FsCall.deleteDoc "a"

/-- A gym event on 2025-08-04 at 14:00. -/
def gymEvent : Event :=
  { id := "e1", title := "Morning workout", date := "2025-08-04", time := "14:00"
    description := "", locationType := "gym" }

/-- An `eventDetails` of an `add` suggestion whose title is the empty string. -/
def badDetails : Details :=
  { title := "", date := "2025-01-01", time := "09:00"
    description := none, locationType := none }

/-! ## Theorems -/

/-- C3: with a transport that fails on every attempt and `maxRetries = 3`,
the retry loop makes exactly 3 outbound attempts and then reports a
terminal error, and the waits between consecutive attempts are exactly
`baseDelay` after the first failure and `2 * baseDelay` after the second. -/
theorem retryLoop_three_failures (baseDelay : Nat) (rest : List LLMResponse) :
    retryLoop 3 baseDelay 0
        (.fetchFailure :: .fetchFailure :: .fetchFailure :: rest) =
      ⟨3, [baseDelay, 2 * baseDelay], .terminalError, 0⟩ := by
  simp [retryLoop, Nat.mul_comm]

/-- C2 (code bug): when every response arrives with a successful transport
status but a body missing the required fields, the loop reports the
shape error each time but keeps issuing new requests — after 4 scripted
shape-error responses it has made 4 outbound attempts, more than
`maxRetries = 3`, and is still running rather than terminated. -/
theorem retryLoop_shape_error_unbounded (baseDelay : Nat) :
    retryLoop 3 baseDelay 0 (List.replicate 4 .missingFields) =
      ⟨4, [], .stillRunning, 4⟩ ∧
    retryLoop 3 baseDelay 0 [.missingFields] = ⟨1, [], .stillRunning, 1⟩ := by
  constructor <;> simp [retryLoop, List.replicate]

/-- C5: the day filter keeps exactly the events whose (normalised) date
equals the selected calendar date, and its predicate does not look at the
`time` field at all. -/
theorem filteredEvents_exactly_selected_day (events : List Event) (selected : Nat) :
    (∀ e : Event, e ∈ filteredEvents events selected ↔
        e ∈ events ∧ dateOrd e.date = selected)
    ∧ (∀ (e : Event) (t : String),
        onSelectedDay selected { e with time := t } = onSelectedDay selected e) := by
  constructor
  · intro e
    simp [filteredEvents, onSelectedDay, List.mem_filter]
  · intro e t
    rfl

/-- C7: a same-day event at 14:00 with a matching location label is a valid
match when the clock reads 13:00, and is excluded when the clock reads
15:00 — the decision compares time-of-day against the current clock
time. -/
theorem same_day_uses_clock_time (dateStr id title desc : String) :
    matchesUpcoming ⟨dateOrd dateStr, 13 * 60⟩ "gym"
        ⟨id, title, dateStr, "14:00", desc, "gym"⟩ = true
    ∧ matchesUpcoming ⟨dateOrd dateStr, 15 * 60⟩ "gym"
        ⟨id, title, dateStr, "14:00", desc, "gym"⟩ = false := by
  constructor <;> simp [matchesUpcoming, locMatch] <;> decide

/-- C1 counterexample: applying `[delete "a", move "b" to "11:00"]` on a
persistence layer whose delete of "a" rejects does NOT attempt the move:
the only persistence call made is the delete, the run is marked failed,
and event "b" keeps its old time — the catch surrounding the whole `for`
loop aborts the remaining operations. -/
theorem applier_failure_skips_rest_counterexample :
    (handleAcceptSuggestion failsDelA [evA, evB] 0
        [ChangeOp.delete (some "a"), ChangeOp.move (some "b") (some "11:00")]).calls
      = [FsCall.deleteDoc "a"]
    ∧ FsCall.update "b" "11:00" ∉
        (handleAcceptSuggestion failsDelA [evA, evB] 0
          [ChangeOp.delete (some "a"), ChangeOp.move (some "b") (some "11:00")]).calls
    ∧ (handleAcceptSuggestion failsDelA [evA, evB] 0
        [ChangeOp.delete (some "a"), ChangeOp.move (some "b") (some "11:00")]).store
      = [evA, evB]
    ∧ (handleAcceptSuggestion failsDelA [evA, evB] 0
        [ChangeOp.delete (some "a"), ChangeOp.move (some "b") (some "11:00")]).failed
      = true := by
  refine ⟨by decide, by decide, by decide, by decide⟩

/-- C1 (amended): the applier runs the operations sequentially in list
order, but when one operation's persistence call fails the surrounding
catch aborts the loop: the failing call is the last one attempted, no
subsequent operation is processed, and the store keeps the effects of the
operations already applied (no rollback).  When no call fails, the spec's
example `[delete "a", move "b" to "11:00"]` removes "a" and then moves
"b", in that order. -/
theorem applier_abort_no_rollback :
    (∀ (fails : FsCall → Bool) (st : List Event) (fresh : Nat) (op : ChangeOp)
        (rest : List ChangeOp) (call : FsCall),
      opCall fresh op = some call → fails call = true →
      handleAcceptSuggestion fails st fresh (op :: rest) = ⟨st, [call], 0, true⟩)
    ∧ (∀ (st : List Event) (fresh : Nat),
      handleAcceptSuggestion (fun _ => false) st fresh
          [ChangeOp.delete (some "a"), ChangeOp.move (some "b") (some "11:00")]
        = ⟨(st.filter fun e => !(e.id == "a")).map (movePatch "b" "11:00"),
           [FsCall.deleteDoc "a", FsCall.update "b" "11:00"], 0, false⟩) := by
  constructor
  · intro fails st fresh op rest call hcall hfail
    simp [handleAcceptSuggestion, hcall, hfail]
  · intro st fresh
    simp [handleAcceptSuggestion, opCall, execCall, nextFresh]

/-- Witness for C1 (amended) at the spec's own scenario. -/
theorem applier_abort_no_rollback_witness :
    handleAcceptSuggestion failsDelA [evA, evB] 0
        [ChangeOp.delete (some "a"), ChangeOp.move (some "b") (some "11:00")]
      = ⟨[evA, evB], [FsCall.deleteDoc "a"], 0, true⟩ :=
  applier_abort_no_rollback.1 failsDelA [evA, evB] 0 (ChangeOp.delete (some "a"))
    [ChangeOp.move (some "b") (some "11:00")] (FsCall.deleteDoc "a")
    (by decide) (by decide)

/-- C6: a change operation that falls through the guard chain — an `add`
without `eventDetails`, a `move` without a (non-empty) `eventId` or
`newTime`, a `delete` without a (non-empty) `eventId`, or an unknown
`type` — triggers no persistence call, is counted as one warning, and the
rest of the list is processed exactly as it would have been. -/
theorem applier_skips_malformed :
    (∀ (fails : FsCall → Bool) (st : List Event) (fresh : Nat)
        (rest : List ChangeOp) (op : ChangeOp),
      opCall fresh op = none →
      handleAcceptSuggestion fails st fresh (op :: rest) =
        ⟨(handleAcceptSuggestion fails st fresh rest).store,
         (handleAcceptSuggestion fails st fresh rest).calls,
         (handleAcceptSuggestion fails st fresh rest).warnings + 1,
         (handleAcceptSuggestion fails st fresh rest).failed⟩)
    ∧ (∀ (fresh : Nat) (eid nt : Option String),
      opCall fresh (.add none) = none ∧
      opCall fresh .unknown = none ∧
      opCall fresh (.move none nt) = none ∧
      opCall fresh (.move eid none) = none ∧
      opCall fresh (.move (some "") nt) = none ∧
      opCall fresh (.move eid (some "")) = none ∧
      opCall fresh (.delete none) = none ∧
      opCall fresh (.delete (some "")) = none) := by
  constructor
  · intro fails st fresh rest op h
    simp [handleAcceptSuggestion, h]
  · intro fresh eid nt
    refine ⟨rfl, rfl, ?_, ?_, ?_, ?_, rfl, ?_⟩
    · cases nt <;> rfl
    · cases eid <;> rfl
    · cases nt <;> simp [opCall]
    · cases eid <;> simp [opCall]
    · simp [opCall]

/-- Witness for C6: a lone unknown operation yields no store change, no
call, one warning, and no failure. -/
theorem applier_skips_malformed_witness :
    handleAcceptSuggestion (fun _ => false) [] 0 [ChangeOp.unknown]
      = ⟨[], [], 1, false⟩ := by
  have h := applier_skips_malformed.1 (fun _ => false) [] 0 [] ChangeOp.unknown rfl
  simpa [handleAcceptSuggestion] using h

/-- C8: a `move` operation carrying a (non-empty) `eventId` and `newTime`
maps the store pointwise with `movePatch`, which changes only the `time`
field of the event with the given id and leaves every field of every
other event untouched. -/
theorem move_updates_only_time (fails : FsCall → Bool) (st : List Event)
    (fresh : Nat) (eventId newTime : String) (hid : eventId ≠ "")
    (ht : newTime ≠ "") (hok : fails (.update eventId newTime) = false) :
    (handleAcceptSuggestion fails st fresh
        [ChangeOp.move (some eventId) (some newTime)]).store
      = st.map (movePatch eventId newTime)
    ∧ ∀ e : Event,
        (movePatch eventId newTime e).id = e.id ∧
        (movePatch eventId newTime e).title = e.title ∧
        (movePatch eventId newTime e).date = e.date ∧
        (movePatch eventId newTime e).description = e.description ∧
        (movePatch eventId newTime e).locationType = e.locationType ∧
        (e.id = eventId → (movePatch eventId newTime e).time = newTime) ∧
        (e.id ≠ eventId → movePatch eventId newTime e = e) := by
  constructor
  · simp [handleAcceptSuggestion, opCall, hid, ht, hok, execCall]
  · intro e
    by_cases h : e.id = eventId <;>
      simp [movePatch, beq_iff_eq, h]

/-- Witness for C8: moving event "b" to "11:00". -/
theorem move_updates_only_time_witness :
    (handleAcceptSuggestion (fun _ => false) [evB] 0
        [ChangeOp.move (some "b") (some "11:00")]).store
      = [evB].map (movePatch "b" "11:00")
    ∧ ∀ e : Event,
        (movePatch "b" "11:00" e).id = e.id ∧
        (movePatch "b" "11:00" e).title = e.title ∧
        (movePatch "b" "11:00" e).date = e.date ∧
        (movePatch "b" "11:00" e).description = e.description ∧
        (movePatch "b" "11:00" e).locationType = e.locationType ∧
        (e.id = "b" → (movePatch "b" "11:00" e).time = "11:00") ∧
        (e.id ≠ "b" → movePatch "b" "11:00" e = e) :=
  move_updates_only_time (fun _ => false) [evB] 0 "b" "11:00"
    (by decide) (by decide) rfl

/-- A truthy optional string yields a non-empty default. -/
theorem truthy_getD_ne (s : Option String) (h : truthy s = true) :
    s.getD "" ≠ "" := by
  cases s with
  | none => simp [truthy] at h
  | some v => simpa [truthy, bne_iff_ne] using h

/-- The year-inference step never empties a non-empty date string. -/
theorem finalizeDate_ne (y : Nat) (s : String) (h : s ≠ "") :
    finalizeDate y s ≠ "" := by
  unfold finalizeDate
  split_ifs with h1 h2
  · intro hEq
    have hl := congrArg String.length hEq
    simp [String.length_append] at hl
    exact absurd hl.1.2 (by decide)
  · intro hEq
    have hl := congrArg String.length hEq
    simp [String.length_append] at hl
    exact absurd hl.1 (by decide)
  · exact h

/-- C9 counterexample: an applied `add` suggestion whose `eventDetails`
carries an empty title writes an event with an empty title to the store —
the applier performs no non-emptiness validation on add details. -/
theorem add_suggestion_writes_empty_title :
    (handleAcceptSuggestion (fun _ => false) [] 0
        [ChangeOp.add (some badDetails)]).store
      = [{ id := "doc-0", title := "", date := "2025-01-01", time := "09:00"
           description := "", locationType := "" }] := by
  decide

/-- C9 (amended): the parse-and-save flow and the edit-form update only
ever write documents with non-empty `title`, `date` and `time`, always
including `description` and `locationType` (defaulted to `""` in the
parse flow); an applied `add` suggestion also defaults `description` and
`locationType` to `""` but copies `title`, `date` and `time` from the
suggestion unvalidated. -/
theorem write_paths_invariant :
    (∀ (year : Nat) (p : ParsedLLM) (d : EventDoc),
      finalParsedEvent year p = some d →
        d.title ≠ "" ∧ d.date ≠ "" ∧ d.time ≠ "" ∧
        d.description = p.description.getD "" ∧
        d.locationType = p.locationType.getD "")
    ∧ (∀ (f : EditForm) (d : EventDoc),
      handleUpdateEvent f = some d →
        d.title ≠ "" ∧ d.date ≠ "" ∧ d.time ≠ "" ∧
        d.description = f.description ∧ d.locationType = f.locationType)
    ∧ (∀ dd : Details,
        (addEventDoc dd).title = dd.title ∧ (addEventDoc dd).date = dd.date ∧
        (addEventDoc dd).time = dd.time ∧
        (addEventDoc dd).description = dd.description.getD "" ∧
        (addEventDoc dd).locationType = dd.locationType.getD "") := by
  refine ⟨?_, ?_, ?_⟩
  · intro year p d hd
    unfold finalParsedEvent at hd
    split_ifs at hd with hg
    · rw [Bool.and_eq_true, Bool.and_eq_true] at hg
      obtain ⟨⟨hg1, hg2⟩, hg3⟩ := hg
      injection hd with hd
      subst hd
      exact ⟨truthy_getD_ne _ hg1,
        finalizeDate_ne year _ (truthy_getD_ne _ hg2),
        truthy_getD_ne _ hg3, rfl, rfl⟩
  · intro f d hd
    unfold handleUpdateEvent at hd
    split_ifs at hd with hg
    · rw [Bool.and_eq_true, Bool.and_eq_true] at hg
      obtain ⟨⟨hg1, hg2⟩, hg3⟩ := hg
      simp only [bne_iff_ne] at hg1 hg2 hg3
      injection hd with hd
      subst hd
      exact ⟨hg1, hg2, hg3, rfl, rfl⟩
  · intro dd
    exact ⟨rfl, rfl, rfl, rfl, rfl⟩

/-- Witness for C9 (amended): a concrete successful parse-and-save. -/
theorem write_paths_invariant_witness :
    ("Team Sync" : String) ≠ "" ∧ ("2025-08-05" : String) ≠ "" ∧
    ("09:00" : String) ≠ "" ∧
    ("" : String) = (Option.getD none "") ∧
    ("office" : String) = Option.getD (some "office") "" :=
  write_paths_invariant.1 2025
    { title := some "Team Sync", date := some "2025-08-05", time := some "09:00"
      description := none, locationType := some "office" }
    { title := "Team Sync", date := "2025-08-05", time := "09:00"
      description := "", locationType := "office" }
    (by decide)

/-- The matcher's filter predicate passes exactly the label matches whose
full timestamp is strictly after the clock, provided the clock minutes
and the event's parsed time are in range (one day = 1440 minutes). -/
theorem matchesUpcoming_iff (now : Clock) (label : String) (e : Event)
    (hmin : now.minutes < 1440) (htime : timeMinutes e.time < 1440) :
    matchesUpcoming now label e = true ↔
      (locMatch label e = true ∧ nowTs now < eventTs e) := by
  by_cases hd : dateOrd e.date = now.day
  · simp only [matchesUpcoming, nowTs, eventTs, hd, beq_self_eq_true, if_true,
      Bool.and_eq_true, decide_eq_true_eq]
    constructor
    · rintro ⟨h1, h2⟩
      exact ⟨h1, by omega⟩
    · rintro ⟨h1, h2⟩
      exact ⟨h1, by omega⟩
  · have hbe : (dateOrd e.date == now.day) = false := by
      simp [hd]
    simp only [matchesUpcoming, nowTs, eventTs, hbe, Bool.false_eq_true, if_false,
      Bool.and_eq_true, decide_eq_true_eq]
    constructor
    · rintro ⟨h1, h2⟩
      exact ⟨h1, by omega⟩
    · rintro ⟨h1, h2⟩
      refine ⟨h1, ?_⟩
      omega

/-- C4: for a non-empty label, the matcher never returns an event whose
full timestamp is at or before the clock, and the returned event is an
earliest-timestamp one among the case-insensitive label matches strictly
after the clock (range hypotheses say the stored times are valid
"HH:MM" values and the clock minutes are in range). -/
theorem matcher_returns_earliest_future (events : List Event) (label : String)
    (now : Clock) (e : Event) (_hlab : label ≠ "")
    (hmin : now.minutes < 1440)
    (htimes : ∀ x ∈ events, timeMinutes x.time < 1440)
    (h : proactiveEvent events label now = some e) :
    e ∈ events ∧ locMatch label e = true ∧ nowTs now < eventTs e ∧
      ∀ x ∈ events, locMatch label x = true → nowTs now < eventTs x →
        eventTs e ≤ eventTs x := by
  unfold proactiveEvent at h
  by_cases hg : (label == "" || events.isEmpty) = true
  · rw [if_pos hg] at h
    exact absurd h (by simp)
  · rw [if_neg hg] at h
    have hperm := List.perm_insertionSort tsLE (events.filter (matchesUpcoming now label))
    have hsort := List.sorted_insertionSort tsLE (events.filter (matchesUpcoming now label))
    unfold matchingUpcomingEvents at h
    cases hl : List.insertionSort tsLE (events.filter (matchesUpcoming now label)) with
    | nil =>
        rw [hl] at h
        exact absurd h (by simp)
    | cons a rest =>
        rw [hl] at h
        have hae : a = e := by simpa using h
        subst hae
        rw [hl] at hperm hsort
        have hmem : a ∈ events.filter (matchesUpcoming now label) :=
          hperm.mem_iff.mp (List.mem_cons_self a rest)
        have hmem' : a ∈ events ∧ matchesUpcoming now label a = true := by
          simpa [List.mem_filter] using hmem
        have hprops :=
          (matchesUpcoming_iff now label a hmin (htimes a hmem'.1)).mp hmem'.2
        refine ⟨hmem'.1, hprops.1, hprops.2, ?_⟩
        intro x hx hlx htx
        have hxm : matchesUpcoming now label x = true :=
          (matchesUpcoming_iff now label x hmin (htimes x hx)).mpr ⟨hlx, htx⟩
        have hxf : x ∈ events.filter (matchesUpcoming now label) :=
          List.mem_filter.mpr ⟨hx, hxm⟩
        rcases List.mem_cons.mp (hperm.mem_iff.mpr hxf) with rfl | hxr
        · exact le_refl _
        · exact List.rel_of_sorted_cons hsort x hxr

/-- Witness for C4: a single matching gym event at 14:00 with the clock at
13:00 on the same day. -/
theorem matcher_returns_earliest_future_witness :
    gymEvent ∈ [gymEvent] ∧ locMatch "gym" gymEvent = true ∧
      nowTs ⟨dateOrd "2025-08-04", 780⟩ < eventTs gymEvent ∧
      ∀ x ∈ [gymEvent], locMatch "gym" x = true →
        nowTs ⟨dateOrd "2025-08-04", 780⟩ < eventTs x →
        eventTs gymEvent ≤ eventTs x :=
  matcher_returns_earliest_future [gymEvent] "gym" ⟨dateOrd "2025-08-04", 780⟩
    gymEvent (by decide) (by decide) (by decide) (by decide)

/-- Cell-by-cell description of the calendar grid array: placeholders on
the first `firstDayOfMonth` indices, then the day numbers in order. -/
theorem calendarDays_getElem (year month i : Nat) :
    (calendarDays year month)[i]? =
      if i < getFirstDayOfMonth year month then some none
      else if i < getFirstDayOfMonth year month + getDaysInMonth year month then
        some (some (i - getFirstDayOfMonth year month + 1))
      else none := by
  unfold calendarDays
  by_cases h1 : i < getFirstDayOfMonth year month
  · rw [List.getElem?_append_left (by simpa using h1)]
    simp [List.getElem?_replicate, h1]
  · rw [List.getElem?_append_right (by simpa using Nat.le_of_not_lt h1)]
    rw [List.length_replicate, List.getElem?_map]
    by_cases h2 : i < getFirstDayOfMonth year month + getDaysInMonth year month
    · rw [List.getElem?_range (by omega)]
      simp [h1, h2]
    · rw [List.getElem?_eq_none (by simpa using by omega)]
      simp [h1, h2]

/-- C10: the calendar grid day array consists of exactly
`getFirstDayOfMonth year month` empty placeholder cells followed by the
day numbers `1 .. getDaysInMonth year month` in increasing order: its
length is the sum of the two, day `d` sits exactly at index
`firstDay + d - 1`, and no other cell holds `d`. -/
theorem calendarDays_spec (year month : Nat) :
    (calendarDays year month).length
        = getFirstDayOfMonth year month + getDaysInMonth year month
    ∧ (∀ i : Nat, i < getFirstDayOfMonth year month →
        (calendarDays year month)[i]? = some none)
    ∧ (∀ d : Nat, 1 ≤ d → d ≤ getDaysInMonth year month →
        (calendarDays year month)[getFirstDayOfMonth year month + d - 1]?
          = some (some d))
    ∧ (∀ i d : Nat, (calendarDays year month)[i]? = some (some d) →
        i = getFirstDayOfMonth year month + d - 1) := by
  refine ⟨?_, ?_, ?_, ?_⟩
  · simp [calendarDays]
  · intro i hi
    rw [calendarDays_getElem]
    simp [hi]
  · intro d h1 h2
    rw [calendarDays_getElem]
    have hlt : ¬ (getFirstDayOfMonth year month + d - 1 < getFirstDayOfMonth year month) := by
      omega
    have h3 : getFirstDayOfMonth year month + d - 1
        < getFirstDayOfMonth year month + getDaysInMonth year month := by
      omega
    have h4 : getFirstDayOfMonth year month + d - 1 - getFirstDayOfMonth year month + 1 = d := by
      omega
    simp [hlt, h3, h4]
  · intro i d hd
    rw [calendarDays_getElem] at hd
    split_ifs at hd with hh1 hh2
    · simp at hd
    · have : i - getFirstDayOfMonth year month + 1 = d := by simpa using hd
      omega

/-- Witness for C10 at January 2025 (first weekday 3, 31 days): the third
placeholder cell and the cell of day 5. -/
theorem calendarDays_spec_witness :
    (calendarDays 2025 0)[2]? = some none
    ∧ (calendarDays 2025 0)[getFirstDayOfMonth 2025 0 + 5 - 1]? = some (some 5) :=
  ⟨(calendarDays_spec 2025 0).2.1 2 (by decide),
   (calendarDays_spec 2025 0).2.2.1 5 (by decide) (by decide)⟩

end Cal
